import Mathlib

/-!
Verification development for the S3-to-Elasticsearch indexer lambda
(`lambdas/es/indexer/index.py`).  The Python source is shallowly embedded:
pure helpers become Lean functions; the boto3 S3 client, `nbformat`,
`json.loads` and the shared-library helpers are modelled as explicit
oracle functions bundled in an `Oracles` structure; the tenacity retry
decorator becomes an explicit fuelled loop.  Constants and behavior of
`document_queue` / `t4_lambda_shared` (not part of the sources here) are
modelled from the specification and marked as such.
-/

set_option autoImplicit false

/-- The `'Error'` entry of a botocore exception response: an optional
`'Code'` field.  `{'Error': {...}}` with no `'Code'` is `⟨none⟩`. -/
structure ErrorInfo where
  code : Option String
  deriving DecidableEq

/-- A `botocore.exceptions.ClientError`: its `.response` dict may or may not
carry an `'Error'` entry. -/
structure ClientError where
  errorField : Option ErrorInfo
  deriving DecidableEq

/-- The value of `exception.response.get('Error', {}).get('Code', 218)`
in `should_retry_exception`: the integer default `218` when either the
`'Error'` or the `'Code'` key is absent, otherwise the string code. -/
inductive ErrorCodeVal where
  | intCode (n : Int)
  | strCode (s : String)
  deriving DecidableEq

/-- Value of `exception.response.get('Error', {}).get('Code', 218)` (index.py line 54). -/
def get_error_code (e : ClientError) : ErrorCodeVal :=
  match e.errorField with
  | none => ErrorCodeVal.intCode 218
  | some info =>
    match info.code with
    | none => ErrorCodeVal.intCode 218
    | some s => ErrorCodeVal.strCode s

/-- Embedding of `should_retry_exception` (index.py lines 52-55):
`error_code not in ["402", "403", "404"]`.  The integer default `218` is
never equal to a string, so a missing code is always retryable. -/
def should_retry_exception (e : ClientError) : Bool :=
  match get_error_code e with
  | ErrorCodeVal.intCode _ => true
  | ErrorCodeVal.strCode s => !(["402", "403", "404"].contains s)

/-- Value of `exception.response.get('Error', {}).get('Code')` as used by the
handler's 403 fallback test (index.py line 287): no default. -/
def response_code (e : ClientError) : Option String :=
  e.errorField.bind fun info => info.code

/-- Python exceptions that the embedded code raises or catches. -/
inductive PyExc where
  | clientError (e : ClientError)
  | valueError (s : String)
  | unicodeDecodeError (s : String)
  | jsonDecodeError (s : String)
  | notJSONError (s : String)
  | keyError (s : String)
  | attributeError (s : String)
  | otherError (s : String)
  deriving DecidableEq

deriving instance DecidableEq for Except

/-- Injects a boto `ClientError` failure into the general exception type
(re-raising an S3 failure unchanged). -/
def mapClientErr {α : Type} : Except ClientError α → Except PyExc α
  | Except.ok a => Except.ok a
  | Except.error e => Except.error (PyExc.clientError e)

/-- Modelled from the spec: the fixed attempt ceiling of the retry policy
(`document_queue.MAX_RETRY`, a module that is not among the sources). -/
def MAX_RETRY : Nat := 2

/-- Keyword arguments assembled by `retry_s3` (index.py lines 380-390) for
`head_object` / `get_object`: `Range` is modelled by the numeric limit of
the `bytes=0-{limit}` header. -/
structure S3Args where
  bucket : String
  key : String
  range : Option Nat
  versionId : Option String
  ifMatch : Option String
  deriving DecidableEq

/-- Python truthiness of an optional integer (`if operation == 'get' and size and limit`). -/
def truthyNat : Option Nat → Bool
  | none => false
  | some n => n != 0

/-- Python truthiness of an optional string (`if version_id:`). -/
def truthyStr : Option String → Bool
  | none => false
  | some s => s != ""

/-- The argument dict built by `retry_s3` (index.py lines 380-390): a
`Range` only for a non-empty `get` with a limit; `VersionId` when the
version id is truthy, otherwise `IfMatch` set to the etag (even an empty
one). -/
def retry_s3_arguments (operation bucket key : String) (size limit : Option Nat)
    (etag : String) (version_id : Option String) : S3Args :=
  { bucket := bucket
    key := key
    range := if operation = "get" && truthyNat size && truthyNat limit then limit else none
    versionId := if truthyStr version_id then version_id else none
    ifMatch := if truthyStr version_id then none else some etag }

/-- The tenacity loop of `retry_s3` (index.py lines 392-404):
`stop_after_attempt`, `retry_if_exception(should_retry_exception)` and
`reraise=True`.  `call n` is the outcome of the `n`-th attempt (0-based),
`fuel` the number of retries still allowed; the second component of the
result is the total number of attempts made.  The exponential-backoff
delays do not change which attempts happen and are not modelled. -/
def retryLoop {α : Type} (pred : ClientError → Bool) (call : Nat → Except ClientError α) :
    Nat → Nat → Except ClientError α × Nat
  | fuel, attempt =>
    match call attempt, fuel with
    | Except.ok a, _ => (Except.ok a, attempt + 1)
    | Except.error e, 0 => (Except.error e, attempt + 1)
    | Except.error e, fuel' + 1 =>
      if pred e then retryLoop pred call fuel' (attempt + 1)
      else (Except.error e, attempt + 1)

/-- Embedding of `retry_s3` (index.py lines 358-404).  Here `call` stands for the boto3
client method selected by `operation` (`head_object` or `get_object`),
indexed by attempt number; an unexpected operation raises `ValueError`
before any call is made.  Returns the final outcome and the number of
attempts performed. -/
def retry_s3 {α : Type} (call : S3Args → Nat → Except ClientError α)
    (operation bucket key : String) (size limit : Option Nat) (etag : String)
    (version_id : Option String) : Except PyExc α × Nat :=
  if operation = "head" ∨ operation = "get" then
    let args := retry_s3_arguments operation bucket key size limit etag version_id
    let r := retryLoop should_retry_exception (fun n => call args n) (MAX_RETRY - 1) 0
    (mapClientErr r.1, r.2)
  else
    (Except.error (PyExc.valueError ("unexpected operation: " ++ operation)), 0)

/-- Numeric value of a hexadecimal digit character. -/
def hexVal (c : Char) : Nat :=
  if c.isDigit then c.toNat - 48
  else if 'a' ≤ c ∧ c ≤ 'f' then c.toNat - 87
  else if 'A' ≤ c ∧ c ≤ 'F' then c.toNat - 55
  else 0

/-- Whether a character is a hexadecimal digit. -/
def isHexDig (c : Char) : Bool :=
  c.isDigit || ('a' ≤ c && c ≤ 'f') || ('A' ≤ c && c ≤ 'F')

/-- Embedding of `urllib.parse.unquote` on the character list: each valid `%XX` pair is
decoded to the byte value, anything else is copied.  (Multi-byte UTF-8
percent sequences are decoded byte-wise here; the embedding is exact for
the ASCII range, which covers every key in the claims.) -/
def unquoteChars : List Char → List Char
  | '%' :: h :: l :: rest =>
    if isHexDig h && isHexDig l then
      Char.ofNat (hexVal h * 16 + hexVal l) :: unquoteChars rest
    else '%' :: unquoteChars (h :: l :: rest)
  | c :: rest => c :: unquoteChars rest
  | [] => []

/-- Embedding of `urllib.parse.unquote`. -/
def unquote (s : String) : String := ⟨unquoteChars s.data⟩

/-- Embedding of `urllib.parse.unquote_plus`: a plus becomes a space, then percent-decoding. -/
def unquote_plus (s : String) : String :=
  ⟨unquoteChars (s.data.map fun c => if c = '+' then ' ' else c)⟩

/-- Splitting a character list on `'/'`. -/
def splitSlash : List Char → List (List Char)
  | [] => [[]]
  | c :: rest =>
    match splitSlash rest with
    | [] => [[]]
    | g :: gs => if c = '/' then [] :: g :: gs else (c :: g) :: gs

/-- Embedding of `pathlib.PurePosixPath(key).name`: the last path component ('.' parts
and empty parts are dropped by the path parser). -/
def posixPathName (key : String) : String :=
  ⟨((splitSlash key.data).filter fun p => p ≠ [] && p ≠ ['.']).getLastD []⟩

/-- The `pathlib` suffix of a file name: `name[i:]` for the last dot position
`i` when `0 < i < len(name) - 1`, else the empty string. -/
def pathSuffix (name : String) : String :=
  let cs := name.data
  match (cs.reverse.findIdx? fun c => c = '.') with
  | some j =>
    let i := cs.length - 1 - j
    if 0 < i ∧ i < cs.length - 1 then ⟨cs.drop i⟩ else ""
  | none => ""

/-- The two-level lower-cased extension of index.py lines 255-258:
`ext2 + ext1` where `ext1` is the path suffix and `ext2` the suffix of the
name with `ext1` removed.  (`with_suffix('')` raises on an empty name in
Python; keys in scope always have a name.) -/
def charLower (c : Char) : Char :=
  if 'A' ≤ c ∧ c ≤ 'Z' then Char.ofNat (c.toNat + 32) else c

/-- Python `str.lower()` over the ASCII range (`.lower()` of index.py line 258;
keys in the claims are ASCII). -/
def lowerStr (s : String) : String := ⟨s.data.map charLower⟩

def twoLevelExt (key : String) : String :=
  let name := posixPathName key
  let ext1 := pathSuffix name
  let stem : String := ⟨name.data.take (name.data.length - ext1.data.length)⟩
  let ext2 := pathSuffix stem
  lowerStr (ext2 ++ ext1)

/-- Embedding of `re.fullmatch(r".c\d{3,5}", ext)` (index.py line 62): one arbitrary
non-newline character (the unescaped `.` wildcard), a literal `c`, then
three to five digits covering the rest of the string. -/
def matchDotC (ext : String) : Bool :=
  match ext.data with
  | a :: b :: ds =>
    decide (a ≠ '\n') && decide (b = 'c') && decide (3 ≤ ds.length) &&
      decide (ds.length ≤ 5) && ds.all fun c => c.isDigit
  | _ => false

/-- Embedding of `re.fullmatch(r".*-c\d{3,5}$", key)` (index.py line 62): the key ends
in `-c` followed by three to five digits, and the part matched by `.*`
contains no newline. -/
def matchKeyC (key : String) : Bool :=
  let cs := key.data
  (List.range 3).any fun j =>
    let k := j + 3
    decide (k + 2 ≤ cs.length) &&
      ((cs.drop (cs.length - k)).all fun c => c.isDigit) &&
      decide ((cs.drop (cs.length - (k + 2))).take 2 = ['-', 'c']) &&
      ((cs.take (cs.length - (k + 2))).all fun c => c ≠ '\n')

/-- Embedding of `infer_extensions` (index.py lines 58-64). -/
def infer_extensions (key ext : String) : String :=
  if matchDotC ext || matchKeyC key then ".parquet" else ext

/-- The partition-file condition as the claim words it: `ext` consists of
`".c"` followed by three to five digits, or `key` ends in `"-c"` followed
by three to five digits.  Stated for comparison with the source's
`infer_extensions`. -/
def claimedParquetTest (key ext : String) : Bool :=
  (match ext.data with
   | a :: b :: ds =>
     decide (a = '.') && decide (b = 'c') && decide (3 ≤ ds.length) &&
       decide (ds.length ≤ 5) && ds.all fun c => c.isDigit
   | _ => false) ||
  (let cs := key.data
   (List.range 3).any fun j =>
     let k := j + 3
     decide (k + 2 ≤ cs.length) &&
       ((cs.drop (cs.length - k)).all fun c => c.isDigit) &&
       decide ((cs.drop (cs.length - (k + 2))).take 2 = ['-', 'c']))

/-- Modelled from the spec: the byte ceiling on extracted text
(`t4_lambda_shared.preview.ELASTIC_LIMIT_BYTES`, not among the sources). -/
def ELASTIC_LIMIT_BYTES : Nat := 10000000

/-- Modelled from the spec: the supported content-index extension set
(`document_queue.CONTENT_INDEX_EXTS`, not among the sources); the spec
names the line-oriented text, notebook and columnar families. -/
def CONTENT_INDEX_EXTS : List String :=
  [".csv", ".html", ".ipynb", ".json", ".md", ".parquet", ".rmd", ".tsv", ".txt"]

/-- UTF-8 byte size of a character list. -/
def byteLen (cs : List Char) : Nat :=
  cs.foldr (fun c n => c.utf8Size + n) 0

/-- UTF-8 byte size of a string. -/
def utf8Len (s : String) : Nat := byteLen s.data

/-- Longest prefix whose UTF-8 byte size fits the budget. -/
def trimAux : List Char → Nat → List Char
  | [], _ => []
  | c :: cs, budget =>
    if c.utf8Size ≤ budget then c :: trimAux cs (budget - c.utf8Size) else []

/-- Modelled from the spec: `t4_lambda_shared.preview.trim_to_bytes` (not
among the sources) clips a string to a byte ceiling with a byte-safe cut
that never splits a multi-byte character. -/
def trim_to_bytes (s : String) (limit : Nat) : String :=
  ⟨trimAux s.data limit⟩

/-- One notebook cell as `extract_text` reads it: `cell.get("cell_type")`
and the optional `"source"` field. -/
structure Cell where
  cell_type : Option String
  source : Option String
  deriving DecidableEq

/-- A parsed notebook (`nbformat.reads` result): `formatted.get("cells", [])`
is the cell list (empty when the key is missing). -/
structure Notebook where
  cells : List Cell
  deriving DecidableEq

/-- The cell filter of `extract_text` (index.py line 145):
`"source" in cell and cell.get("cell_type") in ("code", "markdown")`. -/
def isIndexedCell (c : Cell) : Bool :=
  c.source.isSome &&
    (decide (c.cell_type = some "code") || decide (c.cell_type = some "markdown"))

/-- The loop and join of `extract_text` (index.py lines 143-148) on a
parsed notebook. -/
def extractCells (nb : Notebook) : String :=
  String.intercalate "\n" ((nb.cells.filter isIndexedCell).map fun c => c.source.getD "")

/-- Embedding of `extract_text` (index.py lines 120-148): `nbformat.reads` (an external
parser, passed as `reads`) followed by the cell walk; a parse failure is
the parser's exception. -/
def extract_text (reads : String → Except PyExc Notebook) (s : String) :
    Except PyExc String :=
  match reads s with
  | Except.ok nb => Except.ok (extractCells nb)
  | Except.error e => Except.error e

/-- A JSON value (`json.loads` result for the `helium` metadata). -/
inductive JsonVal where
  | null
  | boolVal (b : Bool)
  | numVal (n : Int)
  | strVal (s : String)
  | arr (l : List JsonVal)
  | obj (l : List (String × JsonVal))

/-- Python truthiness of a decoded JSON value (`decoded_helium or {}`). -/
def jsonTruthy : JsonVal → Bool
  | JsonVal.null => false
  | JsonVal.boolVal b => b
  | JsonVal.numVal n => n != 0
  | JsonVal.strVal s => s != ""
  | JsonVal.arr l => !l.isEmpty
  | JsonVal.obj l => !l.isEmpty

/-- A metadata dict value after the handler's helium step: still the raw
string from S3, or the decoded JSON value. -/
inductive MetaVal where
  | raw (s : String)
  | json (j : JsonVal)

/-- First-match association lookup (Python dict access). -/
def alookup {α : Type} (k : String) : List (String × α) → Option α
  | [] => none
  | (k', v) :: rest => if k' = k then some v else alookup k rest

/-- Opaque S3 object bytes. -/
abbrev ByteData : Type := List Nat

/-- The `head_object` response fields the handler reads (index.py lines
300-302): `ContentLength`, `LastModified` (an abstract timestamp) and the
custom `Metadata` dict. -/
structure HeadResult where
  contentLength : Nat
  lastModified : Nat
  metadata : List (String × String)
  deriving DecidableEq

/-- External collaborators of the handler: the boto3 client methods
(indexed by attempt number, so one oracle describes every retry outcome),
the shared-library helpers, `nbformat.reads`, `json.loads` and the clock.
`getBytes` takes the body and the optional compression. -/
structure Oracles where
  s3head : S3Args → Nat → Except ClientError HeadResult
  s3get : S3Args → Nat → Except ClientError ByteData
  getBytes : ByteData → Option String → Except PyExc ByteData
  decodeUtf8 : ByteData → Except PyExc String
  nbReads : String → Except PyExc Notebook
  extractParquet : ByteData → Except PyExc (String × String)
  previewLines : ByteData → Option String → Except PyExc (List String)
  jsonLoads : String → Option JsonVal
  now : Nat

/-- The `except UnicodeDecodeError` clauses of `get_notebook_cells` and
`get_plain_text`: that failure degrades to the text accumulated so far
(the empty string), anything else propagates. -/
def catchUnicode (r : Except PyExc String) : Except PyExc String :=
  match r with
  | Except.error (PyExc.unicodeDecodeError _) => Except.ok ""
  | x => x

/-- Embedding of `get_notebook_cells` (index.py lines 151-179).  The fetch runs under
`retry_s3`; a `UnicodeDecodeError` anywhere in the fetch/decode is caught;
every exception of `extract_text` (`NotJSONError`, `KeyError`,
`AttributeError`, or any other `Exception`) is swallowed into empty text;
an S3 `ClientError` propagates.  The second component lists the argument
set of each S3 request issued. -/
def get_notebook_cells (E : Oracles) (bucket key : String) (size : Option Nat)
    (compression : Option String) (etag : String) (version_id : Option String) :
    Except PyExc String × List S3Args :=
  let r := retry_s3 E.s3get "get" bucket key size none etag version_id
  (catchUnicode (do
      let body ← r.1
      let data ← E.getBytes body compression
      let notebook ← E.decodeUtf8 data
      pure (match extract_text E.nbReads notebook with
            | Except.ok t => t
            | Except.error _ => "")),
    [retry_s3_arguments "get" bucket key size none etag version_id])

/-- Embedding of `get_plain_text` (index.py lines 182-206): ranged fetch up to
`ELASTIC_LIMIT_BYTES`, preview lines joined by newlines, and only a
`UnicodeDecodeError` is swallowed into empty text. -/
def get_plain_text (E : Oracles) (bucket key : String) (size : Option Nat)
    (compression : Option String) (etag : String) (version_id : Option String) :
    Except PyExc String × List S3Args :=
  let r := retry_s3 E.s3get "get" bucket key size (some ELASTIC_LIMIT_BYTES) etag version_id
  (catchUnicode (do
      let body ← r.1
      let lines ← E.previewLines body compression
      pure (String.intercalate "\n" lines)),
    [retry_s3_arguments "get" bucket key size (some ELASTIC_LIMIT_BYTES) etag version_id])

/-- The gzip peel of `get_contents` (index.py lines 69-73): the detected
compression and the remaining extension. -/
def peelGz (ext : String) : Option String × String :=
  if ext.data.reverse.take 3 = ['z', 'g', '.'] then
    (some "gz", ⟨ext.data.take (ext.data.length - 3)⟩)
  else (none, ext)

/-- Embedding of `get_contents` (index.py lines 67-117): peel `.gz`, correct the
extension with `infer_extensions`, then dispatch — notebook text truncated
to the byte ceiling, parquet summary-plus-body truncated to the byte
ceiling, plain text, or no request at all with empty text for an
unsupported extension.  The second component lists every S3 request
issued. -/
def get_contents (E : Oracles) (bucket key ext0 : String) (etag : String)
    (version_id : Option String) (size : Option Nat) :
    Except PyExc String × List S3Args :=
  let compression := (peelGz ext0).1
  let ext := infer_extensions key (peelGz ext0).2
  if ext ∈ CONTENT_INDEX_EXTS then
    if ext = ".ipynb" then
      let r := get_notebook_cells E bucket key size compression etag version_id
      ((r.1).map (fun t => trim_to_bytes t ELASTIC_LIMIT_BYTES), r.2)
    else if ext = ".parquet" then
      let r := retry_s3 E.s3get "get" bucket key size none etag version_id
      ((do
          let body ← r.1
          let data ← E.getBytes body compression
          let bi ← E.extractParquet data
          pure (trim_to_bytes (bi.2 ++ "\n" ++ bi.1) ELASTIC_LIMIT_BYTES)),
        [retry_s3_arguments "get" bucket key size none etag version_id])
    else
      get_plain_text E bucket key size compression etag version_id
  else
    (Except.ok "", [])

mutual

/-- Modelled from the spec: a JSON stringification used when the decoded
annotation is flattened into the searchable metadata string (the
flattening lives in `document_queue`, not among the sources).  String
escaping is omitted: annotation values in scope are plain text. -/
def jsonStr : JsonVal → String
  | JsonVal.null => "null"
  | JsonVal.boolVal b => cond b "true" "false"
  | JsonVal.numVal n => toString n
  | JsonVal.strVal s => "\"" ++ s ++ "\""
  | JsonVal.arr l => "[" ++ jsonStrList l ++ "]"
  | JsonVal.obj l => "\x7b" ++ jsonStrObj l ++ "\x7d"

/-- Comma-joined rendering of a JSON array's elements. -/
def jsonStrList : List JsonVal → String
  | [] => ""
  | [x] => jsonStr x
  | x :: xs => jsonStr x ++ ", " ++ jsonStrList xs

/-- Comma-joined rendering of a JSON object's fields. -/
def jsonStrObj : List (String × JsonVal) → String
  | [] => ""
  | [(k, v)] => "\"" ++ k ++ "\": " ++ jsonStr v
  | (k, v) :: xs => "\"" ++ k ++ "\": " ++ jsonStr v ++ ", " ++ jsonStrObj xs

end

/-- Modelled from the spec: the flattening of a decoded annotation into one
searchable string — comment, target, stringified extra fields and
stringified user map, joined with a fixed separator
(`document_queue`, not among the sources). -/
def flattenHelium (j : JsonVal) : String :=
  match j with
  | JsonVal.obj fields =>
    let comment := match alookup "comment" fields with
      | some (JsonVal.strVal s) => s
      | _ => ""
    let target := match alookup "target" fields with
      | some (JsonVal.strVal s) => s
      | _ => ""
    let userMeta := match alookup "user_meta" fields with
      | some v => jsonStr v
      | none => ""
    let extras := fields.filter fun kv =>
      kv.1 ≠ "comment" && kv.1 ≠ "target" && kv.1 ≠ "user_meta"
    String.intercalate " " [comment, target, jsonStr (JsonVal.obj extras), userMeta]
  | _ => ""

/-- Modelled from the spec: the searchable annotation text a document gets
from its metadata — only a successfully decoded annotation contributes;
an absent or still-raw (malformed) `helium` entry degrades to the empty
annotation (`document_queue`, not among the sources). -/
def heliumText (meta : List (String × MetaVal)) : String :=
  match alookup "helium" meta with
  | some (MetaVal.json j) => flattenHelium j
  | _ => ""

/-- The helium decode step of the handler (index.py lines 321-327): when
the metadata dict is non-empty and has a `helium` key, `json.loads` it;
a falsy decode becomes `{}`; a decode failure is logged and leaves the
raw string in place. -/
def decodeHelium (loads : String → Option JsonVal) (meta : List (String × String)) :
    List (String × MetaVal) :=
  let meta' := meta.map fun kv => (kv.1, MetaVal.raw kv.2)
  if !meta.isEmpty && (alookup "helium" meta).isSome then
    match alookup "helium" meta with
    | some s =>
      match loads s with
      | some j =>
        meta'.map fun kv =>
          if kv.1 = "helium" then
            (kv.1, MetaVal.json (if jsonTruthy j then j else JsonVal.obj []))
          else kv
      | none => meta'
    | none => meta'
  else meta'

/-- Modelled from the spec: the event kinds the handler processes
(`document_queue.OBJECT_DELETE` / `OBJECT_PUT`, not among the sources);
the values are the storage notification names. -/
def OBJECT_DELETE : String := "ObjectRemoved:Delete"

/-- Modelled from the spec: see `OBJECT_DELETE`. -/
def OBJECT_PUT : String := "ObjectCreated:Put"

/-- A document as `DocumentQueue.append` receives it (modelled from the
spec: `document_queue` is not among the sources).  `meta_text` is the
flattened annotation string derived from the metadata. -/
structure IndexDoc where
  event : String
  bucket : String
  key : String
  ext : String
  etag : String
  version_id : Option String
  size : Option Nat
  last_modified : Nat
  text : String
  meta_text : String
  deriving DecidableEq

/-- Modelled from the spec: `DocumentQueue.append` builds one document (or
tombstone) from its keyword arguments and performs no network I/O; the
annotation text comes from the decoded metadata when present. -/
def buildDoc (event bucket key ext etag : String) (version_id : Option String)
    (last_modified : Nat) (text : String) (meta : Option (List (String × MetaVal)))
    (size : Option Nat) : IndexDoc :=
  { event := event
    bucket := bucket
    key := key
    ext := ext
    etag := etag
    version_id := version_id
    size := size
    last_modified := last_modified
    text := text
    meta_text := match meta with
      | some m => heliumText m
      | none => "" }

/-- One S3 event record as the handler reads it: `eventName`, bucket and
key (still transport-encoded), and the optional `versionId` / `eTag`. -/
structure EventRecord where
  eventName : String
  bucket : String
  key : String
  versionId : Option String
  eTag : Option String
  deriving DecidableEq

/-- Embedding of `version_id = unquote(version_id) if version_id else None`
(index.py lines 249-250). -/
def pyVersion : Option String → Option String
  | some v => if v = "" then none else some (unquote v)
  | none => none

/-- The head fetch with its 403/"null" fallback (index.py lines 275-298):
on a `ClientError` whose code is `"403"` while the version id is the
literal `"null"`, retry once with `version_id=None` (which makes
`retry_s3` fall back to the `IfMatch=etag` condition); any other failure
re-raises.  The second component lists the argument set of each
`retry_s3` invocation. -/
def headWithFallback (E : Oracles) (bucket key etag : String)
    (version_id : Option String) : Except PyExc HeadResult × List S3Args :=
  let args1 := retry_s3_arguments "head" bucket key none none etag version_id
  match (retry_s3 E.s3head "head" bucket key none none etag version_id).1 with
  | Except.ok h => (Except.ok h, [args1])
  | Except.error (PyExc.clientError e) =>
    if response_code e = some "403" ∧ version_id = some "null" then
      let args2 := retry_s3_arguments "head" bucket key none none etag none
      ((retry_s3 E.s3head "head" bucket key none none etag none).1, [args1, args2])
    else (Except.error (PyExc.clientError e), [args1])
  | Except.error e => (Except.error e, [args1])

/-- What processing one event record produces when it does not abort the
whole batch: the document appended (none for a skipped record), the
content-extraction failure remembered for the deferred re-raise, and the
argument set of every S3 request issued for the record. -/
structure EventOutcome where
  doc : Option IndexDoc
  contentErr : Option PyExc
  s3Calls : List S3Args
  deriving DecidableEq

/-- The per-record body of the handler loop (index.py lines 240-348).
Unknown event kinds are skipped.  Deletes append a tombstone with empty
text and fetch nothing.  Puts head the object (with the 403/"null"
fallback); a `ClientError` from that phase skips the record when
permanent and aborts the batch when retryable (the asymmetry of lines
341-348); `get_contents` failures of any class are swallowed into empty
text and remembered; the helium metadata is decoded non-fatally; the
document is appended. -/
def processEvent (E : Oracles) (r : EventRecord) : Except PyExc EventOutcome :=
  if r.eventName ≠ OBJECT_DELETE ∧ r.eventName ≠ OBJECT_PUT then
    Except.ok { doc := none, contentErr := none, s3Calls := [] }
  else
    let bucket := unquote r.bucket
    let key := unquote_plus r.key
    let version_id := pyVersion r.versionId
    let etag := unquote (r.eTag.getD "")
    let ext := twoLevelExt key
    if r.eventName = OBJECT_DELETE then
      Except.ok
        { doc := some (buildDoc r.eventName bucket key ext etag version_id E.now "" none none)
          contentErr := none
          s3Calls := [] }
    else
      match headWithFallback E bucket key etag version_id with
      | (Except.error (PyExc.clientError e), tr) =>
        if should_retry_exception e then Except.error (PyExc.clientError e)
        else Except.ok { doc := none, contentErr := none, s3Calls := tr }
      | (Except.error e, _) => Except.error e
      | (Except.ok head, tr) =>
        let c := get_contents E bucket key ext etag version_id (some head.contentLength)
        let text := match c.1 with
          | Except.ok t => t
          | Except.error _ => ""
        let cexc := match c.1 with
          | Except.ok _ => none
          | Except.error e => some e
        let meta := decodeHelium E.jsonLoads head.metadata
        Except.ok
          { doc := some (buildDoc r.eventName bucket key ext etag version_id
              head.lastModified text (some meta) (some head.contentLength))
            contentErr := cexc
            s3Calls := tr ++ c.2 }

/-- The mutable state of one message's processing: the document batch and
the single retained content-extraction failure. -/
structure BatchState where
  batch : List IndexDoc
  contentExc : Option PyExc
  deriving DecidableEq

/-- Folding one record outcome into the batch state: the document is
appended, a new content failure replaces the retained one. -/
def stepState (st : BatchState) (o : EventOutcome) : BatchState :=
  { batch := st.batch ++ o.doc.toList
    contentExc := match o.contentErr with
      | some e => some e
      | none => st.contentExc }

/-- The handler's event loop (index.py lines 240-348) over one message's
records: a raised record failure aborts immediately, otherwise outcomes
accumulate in order. -/
def runEvents (E : Oracles) : List EventRecord → BatchState → Except PyExc BatchState
  | [], st => Except.ok st
  | r :: rs, st =>
    match processEvent E r with
    | Except.error e => Except.error e
    | Except.ok o => runEvents E rs (stepState st o)

/-- The visible outcome of one fully processed message: the batch handed
to `send_all` (the flush), and the deferred content failure the handler
re-raises only after that flush. -/
structure MessageResult where
  flushed : List IndexDoc
  raisedAfterFlush : Option PyExc
  deriving DecidableEq

/-- One message of the handler (index.py lines 236-355) after envelope
decoding: process every record, then flush the batch (`send_all`,
modelled from the spec as handing over the accumulated batch), then
re-raise the retained content failure if any.  A record-loop failure
propagates before any flush. -/
def handleMessage (E : Oracles) (records : List EventRecord) :
    Except PyExc MessageResult :=
  match runEvents E records { batch := [], contentExc := none } with
  | Except.error e => Except.error e
  | Except.ok st => Except.ok { flushed := st.batch, raisedAfterFlush := st.contentExc }

/-- The document a record contributes when its processing does not abort. -/
def recordDoc (E : Oracles) (r : EventRecord) : Option IndexDoc :=
  match processEvent E r with
  | Except.ok o => o.doc
  | Except.error _ => none

/-- The content failure a record contributes when its processing does not
abort. -/
def recordErr (E : Oracles) (r : EventRecord) : Option PyExc :=
  match processEvent E r with
  | Except.ok o => o.contentErr
  | Except.error _ => none

/-- The last element of a list, or a default: the value of a
last-writer-wins slot threaded over the list. -/
def lastOr {α : Type} : List α → Option α → Option α
  | [], d => d
  | x :: l, _ => lastOr l (some x)

/-- A client call that fails retryably once, then succeeds. -/
def c1call : S3Args → Nat → Except ClientError Nat := fun _ n =>
  if n = 0 then Except.error { errorField := some { code := some "500" } }
  else Except.ok 7

/-- Shared oracle fixture whose S3 calls always fail with a code-less
error and whose parsers are inert. -/
def noopOracles : Oracles where
  s3head := fun _ _ => Except.error { errorField := none }
  s3get := fun _ _ => Except.error { errorField := none }
  getBytes := fun b _ => Except.ok b
  decodeUtf8 := fun _ => Except.ok ""
  nbReads := fun _ => Except.error (PyExc.otherError "parse")
  extractParquet := fun _ => Except.ok ("", "")
  previewLines := fun _ _ => Except.ok []
  jsonLoads := fun _ => none
  now := 0

/-- A notebook fixture with code, raw, markdown and output-only cells. -/
def nbFixture : Notebook :=
  { cells :=
      [ { cell_type := some "code", source := some "cell1" },
        { cell_type := some "raw", source := some "noise" },
        { cell_type := some "markdown", source := some "cell2" },
        { cell_type := some "display_data", source := none } ] }

/-- Oracle fixture whose S3 get succeeds and whose notebook parser returns
`nbFixture`. -/
def nbOracles : Oracles :=
  { noopOracles with
    s3get := fun _ _ => Except.ok [1]
    decodeUtf8 := fun _ => Except.ok "nbjson"
    nbReads := fun _ => Except.ok nbFixture }

/-- Oracle fixture whose S3 get succeeds but whose notebook parser always
fails. -/
def nbBadOracles : Oracles :=
  { noopOracles with
    s3get := fun _ _ => Except.ok [2]
    decodeUtf8 := fun _ => Except.ok "notjson" }

/-- Oracle fixture: head requests carrying the `"null"` version sentinel
fail with 403, any other head request succeeds. -/
def fallbackOracles : Oracles :=
  { noopOracles with
    s3head := fun a _ =>
      if a.versionId = some "null" then
        Except.error { errorField := some { code := some "403" } }
      else Except.ok { contentLength := 1, lastModified := 0, metadata := [] } }

/-- A delete record fixture. -/
def delRecord : EventRecord :=
  { eventName := "ObjectRemoved:Delete", bucket := "b", key := "k.txt",
    versionId := none, eTag := none }

/-- Oracle fixture whose head fetch reports a malformed `helium`
annotation. -/
def c8Oracles : Oracles :=
  { noopOracles with
    s3head := fun _ _ =>
      Except.ok { contentLength := 5, lastModified := 3,
                  metadata := [("helium", "notjson")] } }

/-- A put record fixture with an unsupported extension. -/
def c8Record : EventRecord :=
  { eventName := "ObjectCreated:Put", bucket := "b", key := "k.bin",
    versionId := none, eTag := some "t" }

/-- Oracle fixture for C3: head succeeds, the byte fetch succeeds, but
preview extraction fails with a non-S3 error. -/
def c3Oracles : Oracles :=
  { noopOracles with
    s3head := fun _ _ =>
      Except.ok { contentLength := 12, lastModified := 7, metadata := [] }
    s3get := fun _ _ => Except.ok [3]
    previewLines := fun _ _ => Except.error (PyExc.otherError "boom") }

/-- A put record fixture over a plain-text key. -/
def c3Record : EventRecord :=
  { eventName := "ObjectCreated:Put", bucket := "b", key := "f.txt",
    versionId := none, eTag := some "etag1" }

/-- The batch state after processing `c3Record` under `c3Oracles`. -/
def c3St : BatchState :=
  { batch := [{ event := "ObjectCreated:Put", bucket := "b", key := "f.txt",
                ext := ".txt", etag := "etag1", version_id := none, size := some 12,
                last_modified := 7, text := "", meta_text := "" }]
    contentExc := some (PyExc.otherError "boom") }

theorem retryLoop_spec {α : Type} (pred : ClientError → Bool)
    (call : Nat → Except ClientError α) :
    ∀ (fuel attempt : Nat),
      attempt < (retryLoop pred call fuel attempt).2
      ∧ (retryLoop pred call fuel attempt).2 ≤ attempt + fuel + 1
      ∧ (∀ i, attempt ≤ i → i + 1 < (retryLoop pred call fuel attempt).2 →
          ∃ e, call i = Except.error e ∧ pred e = true)
      ∧ (retryLoop pred call fuel attempt).1 = call ((retryLoop pred call fuel attempt).2 - 1)
      ∧ (∀ e, call ((retryLoop pred call fuel attempt).2 - 1) = Except.error e →
          pred e = true → (retryLoop pred call fuel attempt).2 = attempt + fuel + 1) := by
  intro fuel
  induction fuel with
  | zero =>
    intro attempt
    cases h : call attempt with
    | ok a =>
      have hred : retryLoop pred call 0 attempt = (Except.ok a, attempt + 1) := by
        simp [retryLoop, h]
      rw [hred]
      refine ⟨by omega, by omega, ?_, by simp [h], ?_⟩
      · intro i hi hi2; simp at hi2; omega
      · intro e' he'
        simp [h] at he'
    | error e =>
      have hred : retryLoop pred call 0 attempt = (Except.error e, attempt + 1) := by
        simp [retryLoop, h]
      rw [hred]
      refine ⟨by omega, by omega, ?_, by simp [h], ?_⟩
      · intro i hi hi2; simp at hi2; omega
      · intro e' _ _; omega
  | succ fuel' ih =>
    intro attempt
    cases h : call attempt with
    | ok a =>
      have hred : retryLoop pred call (fuel' + 1) attempt = (Except.ok a, attempt + 1) := by
        simp [retryLoop, h]
      rw [hred]
      refine ⟨by omega, by omega, ?_, by simp [h], ?_⟩
      · intro i hi hi2; simp at hi2; omega
      · intro e' he'
        simp [h] at he'
    | error e =>
      by_cases hp : pred e = true
      · have hred : retryLoop pred call (fuel' + 1) attempt
            = retryLoop pred call fuel' (attempt + 1) := by
          simp [retryLoop, h, hp]
        obtain ⟨ih1, ih2, ih3, ih4, ih5⟩ := ih (attempt + 1)
        rw [hred]
        refine ⟨by omega, by omega, ?_, ih4, ?_⟩
        · intro i hi hi2
          rcases Nat.eq_or_lt_of_le hi with hEq | hlt
          · refine ⟨e, ?_, hp⟩
            rw [← hEq]
            exact h
          · exact ih3 i hlt hi2
        · intro e' he' hp'
          have := ih5 e' he' hp'
          omega
      · have hred : retryLoop pred call (fuel' + 1) attempt
            = (Except.error e, attempt + 1) := by
          simp [retryLoop, h, hp]
        rw [hred]
        refine ⟨by omega, by omega, ?_, by simp [h], ?_⟩
        · intro i hi hi2; simp at hi2; omega
        · intro e' he' hp'
          simp [h] at he'
          rw [← he'] at hp'
          exact absurd hp' hp

/-- Claim C1: for every S3 operation and every failure raised by the
underlying client call, `retry_s3` retries exactly when
`should_retry_exception` holds of the failure (i.e. the error code is not
one of the permanent outcomes `"404"` not-found, `"403"` forbidden and
`"402"`, the code the source's deny-list uses for the conditional-fetch
mismatch); a permanent failure is surfaced with no further attempt, any
other failure is retried up to the `MAX_RETRY` attempt ceiling, and the
final attempt's failure is raised to the caller. -/
theorem c1_retry_policy {α : Type} (call : S3Args → Nat → Except ClientError α)
    (operation bucket key : String) (size limit : Option Nat) (etag : String)
    (version_id : Option String) (hop : operation = "head" ∨ operation = "get") :
    1 ≤ (retry_s3 call operation bucket key size limit etag version_id).2
    ∧ (retry_s3 call operation bucket key size limit etag version_id).2 ≤ MAX_RETRY
    ∧ (∀ i, i + 1 < (retry_s3 call operation bucket key size limit etag version_id).2 →
        ∃ e, call (retry_s3_arguments operation bucket key size limit etag version_id) i
              = Except.error e
          ∧ should_retry_exception e = true)
    ∧ (retry_s3 call operation bucket key size limit etag version_id).1
        = mapClientErr
            (call (retry_s3_arguments operation bucket key size limit etag version_id)
              ((retry_s3 call operation bucket key size limit etag version_id).2 - 1))
    ∧ (∀ e, call (retry_s3_arguments operation bucket key size limit etag version_id)
          ((retry_s3 call operation bucket key size limit etag version_id).2 - 1)
            = Except.error e →
        should_retry_exception e = true →
        (retry_s3 call operation bucket key size limit etag version_id).2 = MAX_RETRY) := by
  obtain ⟨h1, h2, h3, h4, h5⟩ := retryLoop_spec should_retry_exception
    (fun n => call (retry_s3_arguments operation bucket key size limit etag version_id) n)
    (MAX_RETRY - 1) 0
  have hpair : retry_s3 call operation bucket key size limit etag version_id
      = (mapClientErr (retryLoop should_retry_exception
            (fun n => call (retry_s3_arguments operation bucket key size limit etag version_id) n)
            (MAX_RETRY - 1) 0).1,
         (retryLoop should_retry_exception
            (fun n => call (retry_s3_arguments operation bucket key size limit etag version_id) n)
            (MAX_RETRY - 1) 0).2) := by
    simp only [retry_s3, if_pos hop]
  rw [hpair]
  have hmr : 0 + (MAX_RETRY - 1) + 1 = MAX_RETRY := by decide
  refine ⟨by omega, by omega, ?_, by rw [h4], ?_⟩
  · intro i hi
    exact h3 i (Nat.zero_le i) hi
  · intro e he hp
    have := h5 e he hp
    omega

/-- Witness for C1 at a concrete head call. -/
theorem c1_retry_policy_witness :
    1 ≤ (retry_s3 c1call "head" "b" "k" none none "e" none).2
    ∧ (retry_s3 c1call "head" "b" "k" none none "e" none).2 ≤ MAX_RETRY
    ∧ (∀ i, i + 1 < (retry_s3 c1call "head" "b" "k" none none "e" none).2 →
        ∃ e, c1call (retry_s3_arguments "head" "b" "k" none none "e" none) i
              = Except.error e
          ∧ should_retry_exception e = true)
    ∧ (retry_s3 c1call "head" "b" "k" none none "e" none).1
        = mapClientErr
            (c1call (retry_s3_arguments "head" "b" "k" none none "e" none)
              ((retry_s3 c1call "head" "b" "k" none none "e" none).2 - 1))
    ∧ (∀ e, c1call (retry_s3_arguments "head" "b" "k" none none "e" none)
          ((retry_s3 c1call "head" "b" "k" none none "e" none).2 - 1)
            = Except.error e →
        should_retry_exception e = true →
        (retry_s3 c1call "head" "b" "k" none none "e" none).2 = MAX_RETRY) :=
  c1_retry_policy c1call "head" "b" "k" none none "e" none (Or.inl rfl)

/-- Claim C10: an exception whose response carries no error code (missing
`'Error'` or `'Code'`) is classified retryable — the integer default
`218` is never in the string deny-list — so a failure is permanent exactly
when its code is the string `"402"`, `"403"` or `"404"`. -/
theorem c10_missing_code_retryable :
    ∀ e : ClientError,
      (should_retry_exception e = false ↔
        (response_code e = some "402" ∨ response_code e = some "403"
          ∨ response_code e = some "404"))
      ∧ (response_code e = none → should_retry_exception e = true) := by
  intro e
  obtain ⟨ef⟩ := e
  cases ef with
  | none => simp [should_retry_exception, get_error_code, response_code]
  | some info =>
    obtain ⟨c⟩ := info
    cases c with
    | none => simp [should_retry_exception, get_error_code, response_code]
    | some s =>
      constructor
      · by_cases h2 : s = "402"
        · simp [should_retry_exception, get_error_code, response_code, h2]
        · by_cases h3 : s = "403"
          · simp [should_retry_exception, get_error_code, response_code, h3]
          · by_cases h4 : s = "404"
            · simp [should_retry_exception, get_error_code, response_code, h4]
            · simp [should_retry_exception, get_error_code, response_code, h2, h3, h4]
      · intro hnone
        simp [response_code] at hnone

/-- Witness for C10: the no-code exception is retryable. -/
theorem c10_missing_code_retryable_witness :
    should_retry_exception { errorField := none } = true :=
  (c10_missing_code_retryable { errorField := none }).2 rfl

theorem matchDotC_iff (ext : String) :
    matchDotC ext = true ↔
      ∃ a ds, ext.data = a :: 'c' :: ds ∧ a ≠ '\n' ∧ 3 ≤ ds.length ∧ ds.length ≤ 5
        ∧ ∀ c ∈ ds, c.isDigit = true := by
  obtain ⟨cs⟩ := ext
  cases cs with
  | nil => simp [matchDotC]
  | cons a rest =>
    cases rest with
    | nil => simp [matchDotC]
    | cons b ds =>
      simp only [matchDotC, Bool.and_eq_true, decide_eq_true_eq, List.all_eq_true]
      constructor
      · rintro ⟨⟨⟨⟨h1, h2⟩, h3⟩, h4⟩, h5⟩
        exact ⟨a, ds, by rw [h2], h1, h3, h4, h5⟩
      · rintro ⟨a', ds', heq, hn, h3, h4, h5⟩
        obtain ⟨rfl, rfl, rfl⟩ : a = a' ∧ b = 'c' ∧ ds = ds' := by
          injection heq with e1 e2
          injection e2 with e2a e2b
          exact ⟨e1, e2a, e2b⟩
        exact ⟨⟨⟨⟨hn, rfl⟩, h3⟩, h4⟩, h5⟩

theorem matchKeyC_iff (key : String) :
    matchKeyC key = true ↔
      ∃ p ds, key.data = p ++ '-' :: 'c' :: ds ∧ 3 ≤ ds.length ∧ ds.length ≤ 5
        ∧ (∀ c ∈ ds, c.isDigit = true) ∧ '\n' ∉ p := by
  obtain ⟨cs⟩ := key
  simp only [matchKeyC, List.any_eq_true, Bool.and_eq_true, decide_eq_true_eq,
    List.all_eq_true, List.mem_range, String.data]
  constructor
  · rintro ⟨j, hj, ⟨⟨⟨hlen, hdig⟩, htake⟩, hnl⟩⟩
    refine ⟨cs.take (cs.length - (j + 3 + 2)), cs.drop (cs.length - (j + 3)), ?_, ?_, ?_, hdig, ?_⟩
    · have hsplit : cs = cs.take (cs.length - (j + 3 + 2)) ++ cs.drop (cs.length - (j + 3 + 2)) :=
        (List.take_append_drop _ _).symm
      have hdd : (cs.drop (cs.length - (j + 3 + 2))).drop 2 = cs.drop (cs.length - (j + 3)) := by
        rw [List.drop_drop]
        congr 1
        omega
      have hmid : cs.drop (cs.length - (j + 3 + 2))
          = ['-', 'c'] ++ cs.drop (cs.length - (j + 3)) := by
        conv_lhs => rw [← List.take_append_drop 2 (cs.drop (cs.length - (j + 3 + 2)))]
        rw [htake, hdd]
      rw [hmid] at hsplit
      simpa using hsplit
    · have := List.length_drop (cs.length - (j + 3)) cs
      omega
    · have := List.length_drop (cs.length - (j + 3)) cs
      omega
    · intro hmem
      have := hnl '\n' hmem
      simp at this
  · rintro ⟨p, ds, heq, h3, h5, hdig, hnl⟩
    subst heq
    have hlen : (p ++ '-' :: 'c' :: ds).length = p.length + (2 + ds.length) := by
      simp [List.length_append]
      omega
    have hassoc : p ++ '-' :: 'c' :: ds = (p ++ ['-', 'c']) ++ ds := by simp
    refine ⟨ds.length - 3, by omega, ⟨⟨⟨by rw [hlen]; omega, ?_⟩, ?_⟩, ?_⟩⟩
    · have hk : ds.length - 3 + 3 = ds.length := by omega
      rw [hk]
      have hdrop : List.drop ((p ++ '-' :: 'c' :: ds).length - ds.length)
          (p ++ '-' :: 'c' :: ds) = ds := by
        rw [hassoc]
        have hlen2 : ((p ++ ['-', 'c']) ++ ds).length - ds.length = (p ++ ['-', 'c']).length := by
          simp [List.length_append]
          omega
        rw [hlen2, List.drop_left]
      rw [hdrop]
      exact hdig
    · have hk : ds.length - 3 + 3 + 2 = ds.length + 2 := by omega
      rw [hk]
      have hdrop : List.drop ((p ++ '-' :: 'c' :: ds).length - (ds.length + 2))
          (p ++ '-' :: 'c' :: ds) = '-' :: 'c' :: ds := by
        have hlen3 : (p ++ '-' :: 'c' :: ds).length - (ds.length + 2) = p.length := by
          rw [hlen]; omega
        rw [hlen3, List.drop_left]
      rw [hdrop]
      rfl
    · have hk : ds.length - 3 + 3 + 2 = ds.length + 2 := by omega
      rw [hk]
      have htake : List.take ((p ++ '-' :: 'c' :: ds).length - (ds.length + 2))
          (p ++ '-' :: 'c' :: ds) = p := by
        have hlen3 : (p ++ '-' :: 'c' :: ds).length - (ds.length + 2) = p.length := by
          rw [hlen]; omega
        rw [hlen3, List.take_left]
      rw [htake]
      intro c hc habs
      rw [habs] at hc
      exact hnl hc

/-- Counterexample for C4: the source's first regex `.c\d{3,5}` begins
with the unescaped wildcard `.`, so the extension `"Xc000"` — which does
not consist of `".c"` plus digits, with a key that does not end in
`-c<digits>` — is nevertheless rewritten to `".parquet"` instead of being
returned unchanged. -/
theorem c4_partition_heuristic_counterexample :
    infer_extensions "foo" "Xc000" = ".parquet"
    ∧ claimedParquetTest "foo" "Xc000" = false
    ∧ ("Xc000" : String) ≠ ".parquet" := by
  refine ⟨by decide, by decide, by decide⟩

/-- Claim C4 as amended: `infer_extensions` returns `".parquet"` exactly
when the extension is one arbitrary non-newline character followed by
`c` and three to five digits (the regex `.` is a wildcard, not a literal
dot), or the key ends in `-c` followed by three to five digits with no
newline before them, or the extension was already `".parquet"`; in every
other case the extension is returned unchanged.  The spec's scenario
`part-00001.c007` resolves to the columnar family. -/
theorem c4_partition_heuristic_amended (key ext : String) :
    (infer_extensions key ext = ".parquet" ↔
      ((∃ a ds, ext.data = a :: 'c' :: ds ∧ a ≠ '\n' ∧ 3 ≤ ds.length ∧ ds.length ≤ 5
          ∧ ∀ c ∈ ds, c.isDigit = true)
        ∨ (∃ p ds, key.data = p ++ '-' :: 'c' :: ds ∧ 3 ≤ ds.length ∧ ds.length ≤ 5
            ∧ (∀ c ∈ ds, c.isDigit = true) ∧ '\n' ∉ p)
        ∨ ext = ".parquet"))
    ∧ (infer_extensions key ext = ".parquet" ∨ infer_extensions key ext = ext)
    ∧ infer_extensions "part-00001.c007" ".c007" = ".parquet" := by
  refine ⟨?_, ?_, by decide⟩
  · constructor
    · intro h
      by_cases hc : (matchDotC ext || matchKeyC key) = true
      · rcases Bool.or_eq_true _ _ |>.mp hc with hd | hk
        · exact Or.inl ((matchDotC_iff ext).mp hd)
        · exact Or.inr (Or.inl ((matchKeyC_iff key).mp hk))
      · rw [infer_extensions, if_neg hc] at h
        exact Or.inr (Or.inr h)
    · intro h
      rcases h with hd | hk | hp
      · rw [infer_extensions, if_pos]
        rw [Bool.or_eq_true]
        exact Or.inl ((matchDotC_iff ext).mpr hd)
      · rw [infer_extensions, if_pos]
        rw [Bool.or_eq_true]
        exact Or.inr ((matchKeyC_iff key).mpr hk)
      · by_cases hc : (matchDotC ext || matchKeyC key) = true
        · rw [infer_extensions, if_pos hc]
        · rw [infer_extensions, if_neg hc]
          exact hp
  · by_cases hc : (matchDotC ext || matchKeyC key) = true
    · exact Or.inl (by rw [infer_extensions, if_pos hc])
    · exact Or.inr (by rw [infer_extensions, if_neg hc])

/-- Claim C9: when the resolved extension — after peeling an outer `.gz`
layer and applying the partition-file heuristic — is not in the supported
content-index set, `get_contents` issues no S3 request and returns empty
text. -/
theorem c9_unsupported_no_fetch (E : Oracles) (bucket key ext0 etag : String)
    (version_id : Option String) (size : Option Nat)
    (h : infer_extensions key (peelGz ext0).2 ∉ CONTENT_INDEX_EXTS) :
    get_contents E bucket key ext0 etag version_id size = (Except.ok "", []) := by
  simp only [get_contents]
  rw [if_neg h]

/-- Witness for C9 at the `.exe` extension. -/
theorem c9_unsupported_no_fetch_witness :
    infer_extensions "a.exe" (peelGz ".exe").2 ∉ CONTENT_INDEX_EXTS
    ∧ get_contents noopOracles "b" "a.exe" ".exe" "e" none none = (Except.ok "", []) :=
  ⟨by simp [CONTENT_INDEX_EXTS, infer_extensions, matchDotC, matchKeyC, peelGz],
   c9_unsupported_no_fetch noopOracles "b" "a.exe" ".exe" "e" none none
     (by simp [CONTENT_INDEX_EXTS, infer_extensions, matchDotC, matchKeyC, peelGz])⟩

/-- Claim C6: when the fetched and decoded bytes of a notebook-typed
object fail to parse (`nbformat.reads` raises any exception),
`get_notebook_cells` returns the empty string; the parse failure is never
propagated to its caller. -/
theorem c6_notebook_parse_swallowed (E : Oracles) (bucket key : String)
    (size : Option Nat) (compression : Option String) (etag : String)
    (version_id : Option String) (body data : ByteData) (s : String) (pe : PyExc)
    (h1 : (retry_s3 E.s3get "get" bucket key size none etag version_id).1 = Except.ok body)
    (h2 : E.getBytes body compression = Except.ok data)
    (h3 : E.decodeUtf8 data = Except.ok s)
    (h4 : E.nbReads s = Except.error pe) :
    (get_notebook_cells E bucket key size compression etag version_id).1 = Except.ok "" := by
  simp only [get_notebook_cells, h1, h2, h3, extract_text, h4, catchUnicode, bind,
    Except.bind, pure, Except.pure]

theorem byteLen_trimAux (cs : List Char) : ∀ budget, byteLen (trimAux cs budget) ≤ budget := by
  induction cs with
  | nil => intro b; simp [trimAux, byteLen]
  | cons c cs ih =>
    intro b
    by_cases h : c.utf8Size ≤ b
    · have hred : trimAux (c :: cs) b = c :: trimAux cs (b - c.utf8Size) := by
        simp [trimAux, h]
      rw [hred]
      have := ih (b - c.utf8Size)
      simp only [byteLen, List.foldr] at this ⊢
      omega
    · simp [trimAux, h, byteLen]

/-- The truncation result never exceeds the byte ceiling. -/
theorem utf8Len_trim (s : String) (limit : Nat) :
    utf8Len (trim_to_bytes s limit) ≤ limit :=
  byteLen_trimAux s.data limit

/-- Claim C5: for a well-formed notebook (every code/markdown cell carries
a `source`), the `.ipynb` branch of `get_contents` returns exactly the
`source` fields of the code and markdown cells, in document order, joined
by newlines, truncated to the byte ceiling — and the returned content
never exceeds that ceiling.  Output fields and raw cells never
contribute. -/
theorem c5_notebook_extraction (E : Oracles) (bucket key etag : String)
    (version_id : Option String) (size : Option Nat) (body data : ByteData) (s : String)
    (nb : Notebook)
    (hkey : matchKeyC key = false)
    (h1 : (retry_s3 E.s3get "get" bucket key size none etag version_id).1 = Except.ok body)
    (h2 : E.getBytes body none = Except.ok data)
    (h3 : E.decodeUtf8 data = Except.ok s)
    (h4 : E.nbReads s = Except.ok nb)
    (h5 : ∀ c ∈ nb.cells, (c.cell_type = some "code" ∨ c.cell_type = some "markdown") →
        c.source.isSome = true) :
    (get_contents E bucket key ".ipynb" etag version_id size).1
      = Except.ok (trim_to_bytes
          (String.intercalate "\n"
            ((nb.cells.filter fun c =>
                decide (c.cell_type = some "code")
                  || decide (c.cell_type = some "markdown")).map
              fun c => c.source.getD ""))
          ELASTIC_LIMIT_BYTES)
    ∧ utf8Len (trim_to_bytes
          (String.intercalate "\n"
            ((nb.cells.filter fun c =>
                decide (c.cell_type = some "code")
                  || decide (c.cell_type = some "markdown")).map
              fun c => c.source.getD ""))
          ELASTIC_LIMIT_BYTES) ≤ ELASTIC_LIMIT_BYTES := by
  refine ⟨?_, utf8Len_trim _ _⟩
  have hpeel : peelGz ".ipynb" = (none, ".ipynb") := by decide
  have hd : matchDotC ".ipynb" = false := by decide
  have hinfer : infer_extensions key ".ipynb" = ".ipynb" := by
    rw [infer_extensions, hd, hkey]
    rfl
  have hmem : (".ipynb" : String) ∈ CONTENT_INDEX_EXTS := by decide
  have hfil : nb.cells.filter isIndexedCell
      = nb.cells.filter (fun c =>
          decide (c.cell_type = some "code") || decide (c.cell_type = some "markdown")) := by
    apply List.filter_congr
    intro c hc
    cases hb : (decide (c.cell_type = some "code")
        || decide (c.cell_type = some "markdown")) with
    | true =>
      have hsrc := h5 c hc (by
        rcases (Bool.or_eq_true _ _).mp hb with h | h
        · exact Or.inl (of_decide_eq_true h)
        · exact Or.inr (of_decide_eq_true h))
      simp [isIndexedCell, hb, hsrc]
    | false => simp [isIndexedCell, hb]
  simp only [get_contents, hpeel, hinfer, if_pos hmem, ite_true,
    get_notebook_cells, h1, h2, h3, extract_text, h4, catchUnicode, bind,
    Except.bind, pure, Except.pure, Except.map, extractCells, hfil]

/-- Witness for C5 on the concrete notebook fixture. -/
theorem c5_notebook_extraction_witness :
    (get_contents nbOracles "b" "n.ipynb" ".ipynb" "e" none none).1
      = Except.ok (trim_to_bytes
          (String.intercalate "\n"
            ((nbFixture.cells.filter fun c =>
                decide (c.cell_type = some "code")
                  || decide (c.cell_type = some "markdown")).map
              fun c => c.source.getD ""))
          ELASTIC_LIMIT_BYTES)
    ∧ utf8Len (trim_to_bytes
          (String.intercalate "\n"
            ((nbFixture.cells.filter fun c =>
                decide (c.cell_type = some "code")
                  || decide (c.cell_type = some "markdown")).map
              fun c => c.source.getD ""))
          ELASTIC_LIMIT_BYTES) ≤ ELASTIC_LIMIT_BYTES :=
  c5_notebook_extraction nbOracles "b" "n.ipynb" "e" none none [1] [1] "nbjson" nbFixture
    (by decide) (by decide) rfl rfl rfl (by decide)

/-- Witness for C6 at a concrete failing parse. -/
theorem c6_notebook_parse_swallowed_witness :
    (get_notebook_cells nbBadOracles "b" "x.ipynb" none none "e" none).1 = Except.ok "" :=
  c6_notebook_parse_swallowed nbBadOracles "b" "x.ipynb" none none "e" none [2] [2] "notjson"
    (PyExc.otherError "parse") (by decide) rfl rfl rfl

/-- Claim C2 as amended: when the head fetch fails with code `"403"` and
the record's version id is the literal `"null"`, the handler makes exactly
one further fetch with `version_id=None` — but `retry_s3`'s argument
builder then falls back to the etag condition, so the second fetch carries
`IfMatch=etag` rather than no consistency token at all; its outcome is
surfaced as the result. -/
theorem c2_null_version_fallback (E : Oracles) (bucket key etag : String) (e : ClientError)
    (h1 : (retry_s3 E.s3head "head" bucket key none none etag (some "null")).1
        = Except.error (PyExc.clientError e))
    (h2 : response_code e = some "403") :
    headWithFallback E bucket key etag (some "null")
      = ((retry_s3 E.s3head "head" bucket key none none etag none).1,
         [retry_s3_arguments "head" bucket key none none etag (some "null"),
          retry_s3_arguments "head" bucket key none none etag none])
    ∧ (retry_s3_arguments "head" bucket key none none etag none).versionId = none
    ∧ (retry_s3_arguments "head" bucket key none none etag none).ifMatch = some etag := by
  refine ⟨?_, rfl, rfl⟩
  simp only [headWithFallback, h1]
  simp [h2]

/-- Counterexample for C2: at a concrete 403-with-"null" record the
fallback (second) fetch does carry a consistency token — `IfMatch` is the
etag, not absent as the claim states. -/
theorem c2_null_version_fallback_counterexample :
    ((headWithFallback fallbackOracles "b" "k" "abc" (some "null")).2.map
        fun a => (a.versionId, a.ifMatch))
      = [(some "null", none), (none, some "abc")]
    ∧ (some "abc" : Option String) ≠ none := by decide

/-- Witness for C2 (amended) at the concrete fixture. -/
theorem c2_null_version_fallback_witness :
    headWithFallback fallbackOracles "b" "k" "abc" (some "null")
      = ((retry_s3 fallbackOracles.s3head "head" "b" "k" none none "abc" none).1,
         [retry_s3_arguments "head" "b" "k" none none "abc" (some "null"),
          retry_s3_arguments "head" "b" "k" none none "abc" none])
    ∧ (retry_s3_arguments "head" "b" "k" none none "abc" none).versionId = none
    ∧ (retry_s3_arguments "head" "b" "k" none none "abc" none).ifMatch = some "abc" :=
  c2_null_version_fallback fallbackOracles "b" "k" "abc"
    { errorField := some { code := some "403" } } (by decide) rfl

theorem alookup_map_raw (k : String) (meta : List (String × String)) :
    alookup k (meta.map fun kv => (kv.1, MetaVal.raw kv.2))
      = (alookup k meta).map MetaVal.raw := by
  induction meta with
  | nil => simp [alookup]
  | cons kv rest ih =>
    by_cases h : kv.1 = k
    · simp [alookup, h]
    · simp [alookup, h, ih]

/-- A `helium` value that fails to decode leaves the raw string in the
metadata, and the raw string contributes an empty annotation. -/
theorem heliumText_decode_fail (loads : String → Option JsonVal)
    (meta : List (String × String)) (s : String)
    (hhel : alookup "helium" meta = some s) (hbad : loads s = none) :
    heliumText (decodeHelium loads meta) = "" := by
  have hne : meta.isEmpty = false := by
    cases meta with
    | nil => simp [alookup] at hhel
    | cons kv rest => simp [List.isEmpty]
  have hred : decodeHelium loads meta = meta.map fun kv => (kv.1, MetaVal.raw kv.2) := by
    simp only [decodeHelium, hhel, hne, hbad, Option.isSome_some, Bool.not_false,
      Bool.and_self, if_true]
  rw [hred, heliumText, alookup_map_raw, hhel]
  rfl

/-- Reduction of `processEvent` on a put record whose head phase
succeeds. -/
theorem processEvent_put_ok (E : Oracles) (r : EventRecord) (h0 : HeadResult)
    (hput : r.eventName = OBJECT_PUT)
    (hhead : (headWithFallback E (unquote r.bucket) (unquote_plus r.key)
        (unquote (r.eTag.getD "")) (pyVersion r.versionId)).1 = Except.ok h0) :
    processEvent E r = Except.ok
      { doc := some (buildDoc r.eventName (unquote r.bucket) (unquote_plus r.key)
          (twoLevelExt (unquote_plus r.key)) (unquote (r.eTag.getD ""))
          (pyVersion r.versionId) h0.lastModified
          (match (get_contents E (unquote r.bucket) (unquote_plus r.key)
              (twoLevelExt (unquote_plus r.key)) (unquote (r.eTag.getD ""))
              (pyVersion r.versionId) (some h0.contentLength)).1 with
           | Except.ok t => t
           | Except.error _ => "")
          (some (decodeHelium E.jsonLoads h0.metadata)) (some h0.contentLength))
        contentErr := match (get_contents E (unquote r.bucket) (unquote_plus r.key)
            (twoLevelExt (unquote_plus r.key)) (unquote (r.eTag.getD ""))
            (pyVersion r.versionId) (some h0.contentLength)).1 with
          | Except.ok _ => none
          | Except.error e => some e
        s3Calls := (headWithFallback E (unquote r.bucket) (unquote_plus r.key)
            (unquote (r.eTag.getD "")) (pyVersion r.versionId)).2
          ++ (get_contents E (unquote r.bucket) (unquote_plus r.key)
              (twoLevelExt (unquote_plus r.key)) (unquote (r.eTag.getD ""))
              (pyVersion r.versionId) (some h0.contentLength)).2 } := by
  have hne : ¬(r.eventName ≠ OBJECT_DELETE ∧ r.eventName ≠ OBJECT_PUT) := fun hc => hc.2 hput
  have hnotdel : ¬(r.eventName = OBJECT_DELETE) := by
    rw [hput]
    decide
  have hpair : headWithFallback E (unquote r.bucket) (unquote_plus r.key)
      (unquote (r.eTag.getD "")) (pyVersion r.versionId)
      = (Except.ok h0, (headWithFallback E (unquote r.bucket) (unquote_plus r.key)
          (unquote (r.eTag.getD "")) (pyVersion r.versionId)).2) := by
    rw [← hhead]
  simp only [processEvent, if_neg hne, if_neg hnotdel]
  rw [hpair]

theorem lastOr_cons {α : Type} (x : α) (l : List α) (d : Option α) :
    lastOr (x :: l) d = lastOr l (some x) := rfl

/-- A completed event loop accumulates exactly the per-record documents in
order, and retains the most recent per-record content failure. -/
theorem runEvents_ok_char (E : Oracles) :
    ∀ (rs : List EventRecord) (st st' : BatchState),
      runEvents E rs st = Except.ok st' →
      st'.batch = st.batch ++ rs.filterMap (recordDoc E)
      ∧ st'.contentExc = lastOr (rs.filterMap (recordErr E)) st.contentExc := by
  intro rs
  induction rs with
  | nil =>
    intro st st' h
    simp only [runEvents] at h
    cases h
    simp [lastOr]
  | cons r rs ih =>
    intro st st' h
    simp only [runEvents] at h
    cases hpe : processEvent E r with
    | error e =>
      rw [hpe] at h
      cases h
    | ok o =>
      rw [hpe] at h
      obtain ⟨hb, hc⟩ := ih (stepState st o) st' h
      have hdoc : recordDoc E r = o.doc := by simp [recordDoc, hpe]
      have herr : recordErr E r = o.contentErr := by simp [recordErr, hpe]
      constructor
      · rw [hb, List.filterMap_cons, hdoc]
        cases hd : o.doc with
        | none => simp [stepState, hd]
        | some d => simp [stepState, hd]
      · rw [hc, List.filterMap_cons, herr]
        cases hce : o.contentErr with
        | none => simp [stepState, hce]
        | some e => simp [stepState, hce, lastOr_cons]

/-- Claim C7: a delete record triggers no metadata fetch and no byte
fetch, and appends exactly one tombstone document with empty text before
the loop moves on. -/
theorem c7_delete_tombstone (E : Oracles) (r : EventRecord)
    (h : r.eventName = OBJECT_DELETE) :
    ∃ doc, processEvent E r
        = Except.ok { doc := some doc, contentErr := none, s3Calls := [] }
      ∧ doc.text = "" ∧ doc.event = OBJECT_DELETE ∧ doc.key = unquote_plus r.key := by
  have hne : ¬(r.eventName ≠ OBJECT_DELETE ∧ r.eventName ≠ OBJECT_PUT) := fun hc => hc.1 h
  refine ⟨buildDoc r.eventName (unquote r.bucket) (unquote_plus r.key)
      (twoLevelExt (unquote_plus r.key)) (unquote (r.eTag.getD ""))
      (pyVersion r.versionId) E.now "" none none, ?_, rfl, ?_, rfl⟩
  · simp only [processEvent, if_neg hne, if_pos h]
  · simp [buildDoc, h]

/-- Witness for C7 at a concrete delete record. -/
theorem c7_delete_tombstone_witness :
    ∃ doc, processEvent noopOracles delRecord
        = Except.ok { doc := some doc, contentErr := none, s3Calls := [] }
      ∧ doc.text = "" ∧ doc.event = OBJECT_DELETE ∧ doc.key = unquote_plus delRecord.key :=
  c7_delete_tombstone noopOracles delRecord rfl

/-- Claim C8: a put record whose `helium` metadata value fails to decode
as JSON is still processed — the record is appended, not aborted — and
the malformed annotation degrades to an empty annotation on the indexed
document. -/
theorem c8_malformed_annotation_degrades (E : Oracles) (r : EventRecord)
    (h0 : HeadResult) (s : String)
    (hput : r.eventName = OBJECT_PUT)
    (hhead : (headWithFallback E (unquote r.bucket) (unquote_plus r.key)
        (unquote (r.eTag.getD "")) (pyVersion r.versionId)).1 = Except.ok h0)
    (hhel : alookup "helium" h0.metadata = some s)
    (hbad : E.jsonLoads s = none) :
    ∃ o doc, processEvent E r = Except.ok o ∧ o.doc = some doc ∧ doc.meta_text = "" := by
  refine ⟨_, _, processEvent_put_ok E r h0 hput hhead, rfl, ?_⟩
  simp only [buildDoc]
  exact heliumText_decode_fail E.jsonLoads h0.metadata s hhel hbad

/-- Witness for C8 at a concrete record with undecodable annotation. -/
theorem c8_malformed_annotation_degrades_witness :
    ∃ o doc, processEvent c8Oracles c8Record = Except.ok o ∧ o.doc = some doc
      ∧ doc.meta_text = "" :=
  c8_malformed_annotation_degrades c8Oracles c8Record
    { contentLength := 5, lastModified := 3, metadata := [("helium", "notjson")] }
    "notjson" rfl (by decide) (by decide) rfl

/-- Claim C3: a put record whose content extraction fails still gets a
document with empty text; the loop continues, the whole batch is flushed,
and only then is the most recent content-extraction failure of the batch
re-raised (a record-loop abort, by contrast, would skip the flush). -/
theorem c3_deferred_content_failure (E : Oracles) (pre post : List EventRecord)
    (r : EventRecord) (st : BatchState) (e : PyExc) (h0 : HeadResult)
    (hput : r.eventName = OBJECT_PUT)
    (hhead : (headWithFallback E (unquote r.bucket) (unquote_plus r.key)
        (unquote (r.eTag.getD "")) (pyVersion r.versionId)).1 = Except.ok h0)
    (hfail : (get_contents E (unquote r.bucket) (unquote_plus r.key)
        (twoLevelExt (unquote_plus r.key)) (unquote (r.eTag.getD ""))
        (pyVersion r.versionId) (some h0.contentLength)).1 = Except.error e)
    (hrun : runEvents E (pre ++ r :: post) { batch := [], contentExc := none }
        = Except.ok st) :
    (∃ doc, recordDoc E r = some doc ∧ doc.text = "" ∧ doc.event = OBJECT_PUT)
    ∧ recordErr E r = some e
    ∧ handleMessage E (pre ++ r :: post)
        = Except.ok { flushed := (pre ++ r :: post).filterMap (recordDoc E),
                      raisedAfterFlush := st.contentExc }
    ∧ st.contentExc = lastOr ((pre ++ r :: post).filterMap (recordErr E)) none
    ∧ (pre ++ r :: post).filterMap (recordErr E) ≠ [] := by
  have hpe := processEvent_put_ok E r h0 hput hhead
  obtain ⟨hb, hc⟩ := runEvents_ok_char E (pre ++ r :: post)
    { batch := [], contentExc := none } st hrun
  have herr : recordErr E r = some e := by
    simp only [recordErr, hpe, hfail]
  have hmsg : handleMessage E (pre ++ r :: post)
      = Except.ok { flushed := st.batch, raisedAfterFlush := st.contentExc } := by
    simp only [handleMessage, hrun]
  refine ⟨?_, herr, ?_, ?_, ?_⟩
  · refine ⟨buildDoc r.eventName (unquote r.bucket) (unquote_plus r.key)
      (twoLevelExt (unquote_plus r.key)) (unquote (r.eTag.getD ""))
      (pyVersion r.versionId) h0.lastModified ""
      (some (decodeHelium E.jsonLoads h0.metadata)) (some h0.contentLength), ?_, rfl, ?_⟩
    · simp only [recordDoc, hpe, hfail]
    · simp [buildDoc, hput]
  · rw [hmsg, hb]
    simp
  · rw [hc]
  · have hsplit : (pre ++ r :: post).filterMap (recordErr E)
        = pre.filterMap (recordErr E) ++ e :: post.filterMap (recordErr E) := by
      rw [List.filterMap_append, List.filterMap_cons, herr]
    rw [hsplit]
    simp

/-- Witness for C3 at a concrete one-record batch with failing
extraction. -/
theorem c3_deferred_content_failure_witness :
    (∃ doc, recordDoc c3Oracles c3Record = some doc ∧ doc.text = ""
        ∧ doc.event = OBJECT_PUT)
    ∧ recordErr c3Oracles c3Record = some (PyExc.otherError "boom")
    ∧ handleMessage c3Oracles ([] ++ c3Record :: [])
        = Except.ok { flushed := ([] ++ c3Record :: []).filterMap (recordDoc c3Oracles),
                      raisedAfterFlush := c3St.contentExc }
    ∧ c3St.contentExc = lastOr (([] ++ c3Record :: []).filterMap (recordErr c3Oracles)) none
    ∧ ([] ++ c3Record :: []).filterMap (recordErr c3Oracles) ≠ [] :=
  c3_deferred_content_failure c3Oracles [] [] c3Record c3St (PyExc.otherError "boom")
    { contentLength := 12, lastModified := 7, metadata := [] }
    rfl (by decide) (by decide) (by decide)
